import Mathlib

/-!
Verification of the WhatsApp chat-transcript parsing and analysis pipeline
(`data_processor.py`, `analysis_engine.py`, and the consolidated copy in
`app.py`) against its specification.

The embedding works on `String` / `List Char`.  The Python regular
expression `WA_MESSAGE_START_PATTERN`

  `^\[(\d{2}/\d{2}/\d{2}),\s*(\d{1,2}:\d{2}:\d{2})\s*(\u202F|)(AM|PM|am|pm|)\s*\]\s*([^:]+):\s*(.*)`

(compiled with IGNORECASE) is translated as a deterministic recursive
matcher; at the points where the Python backtracking engine has real choice
points (`\s*` before the optional U+202F group, the `{1,2}` hour width and
the `\s*([^:]+)` interplay) the translation keeps the greedy-first
backtracking explicit, so that the captured groups coincide with the ones
the Python engine produces.  `\d` is modelled as the ASCII digits and `\s`
as the Unicode whitespace set used by CPython (exotic non-ASCII digits are
outside the model).
-/

/-- Numeric value of an ASCII digit character. -/
def digitVal (c : Char) : Nat := c.toNat - '0'.toNat

/-- The character set matched by Python's `\s` (and stripped by `str.strip()`):
ASCII whitespace, the C1 separators, and the Unicode space characters,
including U+00A0 and the narrow no-break space U+202F. -/
def isPySpace (c : Char) : Bool :=
  match c with
  | ' ' | '\t' | '\n' | '\r' | '\u000B' | '\u000C'
  | '\u001C' | '\u001D' | '\u001E' | '\u001F' | '\u0085' | '\u00A0'
  | '\u1680' | '\u2000' | '\u2001' | '\u2002' | '\u2003' | '\u2004'
  | '\u2005' | '\u2006' | '\u2007' | '\u2008' | '\u2009' | '\u200A'
  | '\u2028' | '\u2029' | '\u202F' | '\u205F' | '\u3000' => true
  | _ => false

/-- Characters at which Python's `str.splitlines()` breaks a line. -/
def isLineBreak (c : Char) : Bool :=
  match c with
  | '\n' | '\r' | '\u000B' | '\u000C'
  | '\u001C' | '\u001D' | '\u001E' | '\u0085' | '\u2028' | '\u2029' => true
  | _ => false

/-- `str.strip()` on a character list: remove leading and trailing whitespace. -/
def pyStripList (cs : List Char) : List Char :=
  ((cs.dropWhile isPySpace).reverse.dropWhile isPySpace).reverse

/-- Python `str.strip()`. -/
def pyStrip (s : String) : String := String.mk (pyStripList s.data)

/-- Python `str.rstrip()` (right trim only); used to state what the spec
claims about continuation lines. -/
def pyRStrip (s : String) : String :=
  String.mk ((s.data.reverse.dropWhile isPySpace).reverse)

/-- Greedy `\s*` where no backtracking can matter (the following pattern
matches no whitespace character). -/
def skipSpaces (cs : List Char) : List Char := cs.dropWhile isPySpace

/-- Python `str.splitlines()` on a character list (`acc` is the current line,
reversed). `\r\n` counts as a single break; a trailing break emits no empty
final line. -/
def splitLinesList : List Char → List Char → List (List Char)
  | [], acc => if acc.isEmpty then [] else [acc.reverse]
  | '\r' :: '\n' :: rest, acc => acc.reverse :: splitLinesList rest []
  | c :: rest, acc =>
    if isLineBreak c then acc.reverse :: splitLinesList rest []
    else splitLinesList rest (c :: acc)

/-- Python `str.splitlines()`. -/
def splitLines (s : String) : List String :=
  (splitLinesList s.data []).map String.mk

/-- The six capture groups of `WA_MESSAGE_START_PATTERN`:
date, time, optional U+202F, optional meridiem, sender, rest of line. -/
structure HeaderMatch where
  g1 : String
  g2 : String
  g3 : String
  g4 : String
  g5 : String
  g6 : String
deriving Repr, DecidableEq

/-- `(\d{2}/\d{2}/\d{2})`: exactly two digits, slash, two digits, slash,
two digits. -/
def matchDate : List Char → Option (String × List Char)
  | a :: b :: '/' :: c :: d :: '/' :: e :: f :: rest =>
    if a.isDigit && b.isDigit && c.isDigit && d.isDigit && e.isDigit && f.isDigit then
      some (String.mk [a, b, '/', c, d, '/', e, f], rest)
    else none
  | _ => none

/-- `(\d{1,2}:\d{2}:\d{2})`.  The greedy two-digit hour is tried first; if
the second character is a digit but no `:` follows, the one-digit fallback
would have to match `:` against that digit, so the whole group fails --
which is what the code below does directly. -/
def matchTime : List Char → Option (String × List Char)
  | a :: b :: rest =>
    if a.isDigit then
      if b.isDigit then
        match rest with
        | ':' :: m1 :: m2 :: ':' :: s1 :: s2 :: rest2 =>
          if m1.isDigit && m2.isDigit && s1.isDigit && s2.isDigit then
            some (String.mk [a, b, ':', m1, m2, ':', s1, s2], rest2)
          else none
        | _ => none
      else if b = ':' then
        match rest with
        | m1 :: m2 :: ':' :: s1 :: s2 :: rest2 =>
          if m1.isDigit && m2.isDigit && s1.isDigit && s2.isDigit then
            some (String.mk [a, ':', m1, m2, ':', s1, s2], rest2)
          else none
        | _ => none
      else none
    else none
  | _ => none

/-- `(AM|PM|am|pm|)\s*\]` at a fixed position: with IGNORECASE each
alternative matches any case mix of that two-letter word, and all four are
tried before the empty alternative.  Returns the captured meridiem text and
the rest after `]`. -/
def meriEmpty (cs : List Char) : Option (String × List Char) :=
  match skipSpaces cs with
  | d :: r => if d = ']' then some ("", r) else none
  | [] => none

/-- `(AM|PM|am|pm|)\s*\]` continued: the four meridiem alternatives (any
case mix, IGNORECASE) are tried before the empty alternative `meriEmpty`. -/
def meriTail (cs : List Char) : Option (String × List Char) :=
  match cs with
  | c1 :: c2 :: rest =>
    if (c1 = 'A' ∨ c1 = 'a' ∨ c1 = 'P' ∨ c1 = 'p') ∧ (c2 = 'M' ∨ c2 = 'm') then
      match skipSpaces rest with
      | d :: r => if d = ']' then some (String.mk [c1, c2], r) else meriEmpty cs
      | [] => meriEmpty cs
    else meriEmpty cs
  | _ => meriEmpty cs

/-- `(\u202F|)(AM|PM|am|pm|)\s*\]` at a fixed position: the U+202F
alternative is tried before the empty one. -/
def meriAt (cs : List Char) : Option (String × String × List Char) :=
  match cs with
  | c :: rest =>
    if c = '\u202F' then
      match meriTail rest with
      | some p => some ("\u202F", p.1, p.2)
      | none => (meriTail cs).map (fun p => ("", p.1, p.2))
    else (meriTail cs).map (fun p => ("", p.1, p.2))
  | [] => (meriTail cs).map (fun p => ("", p.1, p.2))

/-- `\s*(\u202F|)(AM|PM|am|pm|)\s*\]`: the leading `\s*` is greedy, giving
characters back one at a time on failure (longest prefix first). -/
def meriSection (cs : List Char) : Option (String × String × List Char) :=
  match cs with
  | c :: rest =>
    if isPySpace c then
      match meriSection rest with
      | some out => some out
      | none => meriAt (c :: rest)
    else meriAt (c :: rest)
  | [] => meriAt []

/-- Split at the first `:`; `none` when there is no colon. -/
def splitAtColon : List Char → Option (List Char × List Char)
  | [] => none
  | c :: rest =>
    if c = ':' then some ([], rest)
    else
      match splitAtColon rest with
      | some (span, r) => some (c :: span, r)
      | none => none

/-- `\s*([^:]+):` -- `[^:]+` runs up to the first colon.  The greedy `\s*`
first swallows the leading whitespace of that span; when the whole span is
whitespace it backs off one character so that `[^:]+` can match, leaving a
single (whitespace) character as the sender group -- exactly the Python
backtracking behaviour. -/
def senderSection (cs : List Char) : Option (String × List Char) :=
  match splitAtColon cs with
  | none => none
  | some (span, rest) =>
    if span = [] then none
    else if (span.takeWhile isPySpace).length = span.length then
      some (String.mk [span.getLastD ' '], rest)
    else some (String.mk (span.drop ((span.takeWhile isPySpace).length)), rest)

/-- `x :: rest` when the head is the expected character. -/
def expectChar (c : Char) : List Char → Option (List Char)
  | x :: xs => if x = c then some xs else none
  | [] => none

/-- `WA_MESSAGE_START_PATTERN.match(line)` on the characters of one line:
`^\[`, date, `,`, `\s*`, time, meridiem section, `]`, sender section,
`:\s*`, rest of line. -/
def waMatch (cs : List Char) : Option HeaderMatch :=
  (expectChar '[' cs).bind fun r0 =>
  (matchDate r0).bind fun p1 =>
  (expectChar ',' p1.2).bind fun r2 =>
  (matchTime (skipSpaces r2)).bind fun p2 =>
  (meriSection p2.2).bind fun p3 =>
  (senderSection p3.2.2).bind fun p4 =>
  some ⟨p1.1, p2.1, p3.1, p3.2.1, p4.1, String.mk (skipSpaces p4.2)⟩

/-- The Line Classifier: `WA_MESSAGE_START_PATTERN.match(line)`. -/
def classify (line : String) : Option HeaderMatch := waMatch line.data

/-!
The Message Assembler: `WhatsAppDataProcessor.parse_chat` (identical in
`data_processor.py` and `app.py`).
-/

/-- One raw message as built by `parse_chat`:
`DateTimeStr`, `Sender`, `Message`. -/
structure RawMessage where
  dateTimeStr : String
  sender : String
  message : String
deriving Repr, DecidableEq

/-- Builds the `current_message` dict from a header match:
`time_ampm_part = f"{g3}{g4.strip()}" if g4 else ""`,
`time_part = f"{g2}{time_ampm_part}"`,
`DateTimeStr = f"{g1} {time_part}"`, sender and message are stripped. -/
def headerToMessage (h : HeaderMatch) : RawMessage :=
  let time_ampm := if h.g4 = "" then "" else h.g3 ++ pyStrip h.g4
  ⟨h.g1 ++ " " ++ (h.g2 ++ time_ampm), pyStrip h.g5, pyStrip h.g6⟩

/-- The line loop of `parse_chat`, with the optional open message made
explicit (the Python dict `current_message` is truthy exactly when a header
has been seen).  A header line flushes the open message and opens a new
one; a non-header line is appended (stripped, after a newline) to the open
message, or discarded when no message is open; the message still open at
the end of input is flushed. -/
def assembleLines : List String → Option RawMessage → List RawMessage
  | [], cur =>
    (match cur with
     | some m => [m]
     | none => [])
  | line :: rest, cur =>
    match classify line with
    | some h =>
      (match cur with
       | some m => m :: assembleLines rest (some (headerToMessage h))
       | none => assembleLines rest (some (headerToMessage h)))
    | none =>
      (match cur with
       | some m =>
         assembleLines rest (some ⟨m.dateTimeStr, m.sender, m.message ++ "\n" ++ pyStrip line⟩)
       | none => assembleLines rest none)

/-- `WhatsAppDataProcessor.parse_chat`: split the file content into lines
and run the assembler. -/
def parse_chat (text : String) : List RawMessage :=
  assembleLines (splitLines text) none

/-!
The Temporal Normalizer.  `process_dataframe` calls
`pd.to_datetime(..., format='%d/%m/%y %I:%M:%S%p', errors='coerce')`;
the model below implements the strptime semantics of those format strings:
numeric fields take one or two digits (two preferred, backtracking to one),
`%y` is exactly two digits mapped through the POSIX pivot (00-68 to 2000+,
69-99 to 1900+), `%p` is a case-insensitive AM/PM pair, and the result must
be a real calendar date with no unconverted trailing characters.
-/

/-- A naive timestamp as produced by `pd.to_datetime`. -/
structure DateTime where
  year : Nat
  month : Nat
  day : Nat
  hour : Nat
  minute : Nat
  second : Nat
deriving Repr, DecidableEq

/-- Gregorian leap-year rule. -/
def isLeap (y : Nat) : Bool := y % 4 == 0 && (y % 100 != 0 || y % 400 == 0)

/-- Days in a month of a given year. -/
def daysInMonth (year mo : Nat) : Nat :=
  if mo = 2 then (if isLeap year then 29 else 28)
  else if mo = 4 ∨ mo = 6 ∨ mo = 9 ∨ mo = 11 then 30
  else 31

/-- The strptime `%y` pivot: two-digit years 00-68 mean 2000-2068,
69-99 mean 1969-1999. -/
def yearOfToken (yy : Nat) : Nat := if yy ≤ 68 then 2000 + yy else 1900 + yy

/-- 12-hour to 24-hour conversion done by `%I`/`%p`. -/
def hour12 (hr : Nat) (pm : Bool) : Nat :=
  if pm then (if hr = 12 then 12 else hr + 12) else (if hr = 12 then 0 else hr)

/-- Candidate parses of a 1-2 digit strptime numeric field, two digits
first (the order of the alternatives in strptime's regexes). -/
def fieldCand : List Char → List (Nat × List Char)
  | a :: b :: rest =>
    if a.isDigit then
      if b.isDigit then
        [(digitVal a * 10 + digitVal b, rest), (digitVal a, b :: rest)]
      else [(digitVal a, b :: rest)]
    else []
  | [a] => if a.isDigit then [(digitVal a, ([] : List Char))] else []
  | [] => []

/-- Try the field candidates in order: a candidate is viable when its value
is in `[lo, hi]` and the continuation `k` succeeds on the rest. -/
def tryCands (lo hi : Nat) (k : Nat → List Char → Option DateTime) :
    List (Nat × List Char) → Option DateTime
  | [] => none
  | (v, r) :: rest =>
    match (if lo ≤ v ∧ v ≤ hi then k v r else none) with
    | some dt => some dt
    | none => tryCands lo hi k rest

/-- `%p` against exactly the remaining two characters (case-insensitive);
`some true` for PM. -/
def parseMeridiemEnd : List Char → Option Bool
  | [c1, c2] =>
    if c2 = 'M' ∨ c2 = 'm' then
      if c1 = 'A' ∨ c1 = 'a' then some false
      else if c1 = 'P' ∨ c1 = 'p' then some true
      else none
    else none
  | _ => none

/-- Final calendar-validity check and construction of the timestamp
(month and day lower/upper bounds are enforced by the field ranges). -/
def mkDT (year mo d hour mi se : Nat) : Option DateTime :=
  if d ≤ daysInMonth year mo then some ⟨year, mo, d, hour, mi, se⟩ else none

/-- `%I:%M:%S%p` with the date fields already parsed. -/
def finish12 (d mo year : Nat) (cs : List Char) : Option DateTime :=
  tryCands 1 12 (fun hr r =>
    match r with
    | ':' :: r2 => tryCands 0 59 (fun mi r3 =>
        match r3 with
        | ':' :: r4 => tryCands 0 59 (fun se r5 =>
            match parseMeridiemEnd r5 with
            | some pm => mkDT year mo d (hour12 hr pm) mi se
            | none => none) (fieldCand r4)
        | _ => none) (fieldCand r2)
    | _ => none) (fieldCand cs)

/-- `%H:%M:%S` with the date fields already parsed; the input must be fully
consumed. -/
def finish24 (d mo year : Nat) (cs : List Char) : Option DateTime :=
  tryCands 0 23 (fun hr r =>
    match r with
    | ':' :: r2 => tryCands 0 59 (fun mi r3 =>
        match r3 with
        | ':' :: r4 => tryCands 0 59 (fun se r5 =>
            match r5 with
            | [] => mkDT year mo d hr mi se
            | _ => none) (fieldCand r4)
        | _ => none) (fieldCand r2)
    | _ => none) (fieldCand cs)

/-- `%d/%m/%y ` (day, month, two-digit year, one literal space), then the
given time parser. -/
def parseDatePart (finish : Nat → Nat → Nat → List Char → Option DateTime)
    (cs : List Char) : Option DateTime :=
  tryCands 1 31 (fun d r =>
    match r with
    | c :: r2 =>
      if c = '/' then
        tryCands 1 12 (fun mo r3 =>
          match r3 with
          | c2 :: a :: b :: c3 :: r4 =>
            if c2 = '/' ∧ c3 = ' ' ∧ a.isDigit = true ∧ b.isDigit = true then
              finish d mo (yearOfToken (digitVal a * 10 + digitVal b)) r4
            else none
          | _ => none) (fieldCand r2)
      else none
    | [] => none) (fieldCand cs)

/-- `pd.to_datetime(s, format='%d/%m/%y %I:%M:%S%p', errors='coerce')` on
one string (`none` is NaT). -/
def parse12 (s : String) : Option DateTime := parseDatePart finish12 s.data

/-- `pd.to_datetime(s, format='%d/%m/%y %H:%M:%S', errors='coerce')` on one
string.  In `process_dataframe` this call sits in an `except ValueError`
branch that can never run: with `errors='coerce'` the 12-hour call returns
NaT for unparseable entries instead of raising. -/
def parse24 (s : String) : Option DateTime := parseDatePart finish24 s.data

/-!
Cleaning and the Content Filter (`process_dataframe`, steps 1-4).
-/

/-- `str.replace(r'^\u200E|\u200F', '', regex=True)` on one message: the
alternation anchors only the LRM at the start, so one leading U+200E is
removed and every U+200F anywhere is removed. -/
def removeMarks (s : String) : String :=
  let l :=
    match s.data with
    | '\u200E' :: rest => rest
    | l2 => l2
  String.mk (l.filter (fun c => c != '\u200F'))

/-- One phrase of the joined pattern matched at the current position
(case-insensitive; `.` in a phrase is the regex wildcard for one
character). -/
def phraseMatchAt : List Char → List Char → Bool
  | [], _ => true
  | _ :: _, [] => false
  | p :: ps, c :: cs2 => (p == '.' || p.toLower == c.toLower) && phraseMatchAt ps cs2

/-- `re.search` of the alternation of the phrases: some phrase matches at
some position. -/
def searchFrom (phrases : List (List Char)) : List Char → Bool
  | [] => phrases.any (fun p => phraseMatchAt p [])
  | c :: cs2 =>
    phrases.any (fun p => phraseMatchAt p (c :: cs2)) || searchFrom phrases cs2

/-- `Series.str.contains('|'.join(phrases), case=False)` on one message. -/
def containsAnyPhrase (phrases : List String) (s : String) : Bool :=
  searchFrom (phrases.map (fun p => p.data)) s.data

/-- The `system_messages` list of `data_processor.py` (9 phrases). -/
def system_messages : List String :=
  ["Messages and calls are end-to-end encrypted.", "image omitted",
   "document omitted", "sticker omitted", "This message was deleted.",
   "GIF omitted", "audio omitted", "video omitted",
   "You joined using this group\x27s invite link"]

/-- The `system_messages` list of `app.py` (the same 9 phrases plus the
group-change notices and the bare membership keywords). -/
def system_messages_app : List String :=
  ["Messages and calls are end-to-end encrypted.", "image omitted",
   "document omitted", "sticker omitted", "This message was deleted.",
   "GIF omitted", "audio omitted", "video omitted",
   "You joined using this group\x27s invite link",
   "changed the group name", "changed this group\x27s icon",
   "changed the group settings", "created this group",
   "left", "added", "removed", "joined"]

/-- English month names, `dt.month_name()`. -/
def monthName : Nat → String
  | 1 => "January"
  | 2 => "February"
  | 3 => "March"
  | 4 => "April"
  | 5 => "May"
  | 6 => "June"
  | 7 => "July"
  | 8 => "August"
  | 9 => "September"
  | 10 => "October"
  | 11 => "November"
  | 12 => "December"
  | _ => ""

/-- Day-of-week index (0 = Sunday) by Sakamoto's method. -/
def weekdayIndex (year mo d : Nat) : Nat :=
  let t := [0, 3, 2, 5, 0, 3, 5, 1, 4, 6, 2, 4]
  let y := if mo < 3 then year - 1 else year
  (y + y / 4 - y / 100 + y / 400 + t.getD (mo - 1) 0 + d) % 7

/-- `dt.day_name()`: full English weekday name. -/
def dayName (year mo d : Nat) : String :=
  match weekdayIndex year mo d with
  | 0 => "Sunday"
  | 1 => "Monday"
  | 2 => "Tuesday"
  | 3 => "Wednesday"
  | 4 => "Thursday"
  | 5 => "Friday"
  | _ => "Saturday"

/-- One row of the processed DataFrame (all columns both copies compute;
which columns each copy finally selects is recorded separately below). -/
structure CleanRecord where
  day : Nat
  month : String
  year : Nat
  hour : Nat
  minute : Nat
  day_of_week : String
  sender : String
  message : String
  dateTime : DateTime
deriving Repr, DecidableEq

/-- `process_dataframe` restricted to one row, parameterised by the
system-message list.  Step 1 strips the invisible marks and whitespace and
drops empty messages; step 2 applies the 12-hour `to_datetime`
(`errors='coerce'`; the 24-hour `except`-branch is unreachable, see
`parse24`) and drops NaT rows; step 4 drops rows whose message contains any
system phrase. -/
def processRecord (phrases : List String) (m : RawMessage) : Option CleanRecord :=
  if pyStrip (removeMarks m.message) = "" then none
  else
    match parse12 m.dateTimeStr with
    | none => none
    | some dt =>
      if containsAnyPhrase phrases (pyStrip (removeMarks m.message)) then none
      else some ⟨dt.day, monthName dt.month, dt.year, dt.hour, dt.minute,
                 dayName dt.year dt.month dt.day, m.sender,
                 pyStrip (removeMarks m.message), dt⟩

/-- `process_dataframe` over the whole message list (rows are processed
independently and order is preserved). -/
def process_dataframe (phrases : List String) (msgs : List RawMessage) :
    List CleanRecord :=
  msgs.filterMap (processRecord phrases)

/-- The spec's `parseTranscript` realised by the standalone modules:
`parse_chat` then `process_dataframe` with `data_processor.py`'s phrase
list. -/
def parseTranscript (text : String) : List CleanRecord :=
  process_dataframe system_messages (parse_chat text)

/-- The same pipeline as duplicated in `app.py` (its longer phrase list;
`parse_chat` is identical in both copies). -/
def parseTranscript_app (text : String) : List CleanRecord :=
  process_dataframe system_messages_app (parse_chat text)

/-- The column selection returned by `data_processor.py`'s
`process_dataframe` (line 100). -/
def outputColumns : List String :=
  ["day", "month", "year", "hour", "minute", "sender", "message", "DateTime"]

/-- The column selection returned by `app.py`'s `process_dataframe`
(line 118). -/
def outputColumns_app : List String :=
  ["day", "month", "year", "hour", "minute", "day_of_week", "sender",
   "message", "DateTime"]

/-- The column `WhatsAppAnalyzer.get_timeline_data` reads for the weekday
histogram. -/
def timelineWeekdayColumn : String := "day_of_week"

/-!
The Aggregation Engine pieces the claims need
(`WhatsAppAnalyzer.__init__` scoping and `get_timeline_data`'s hourly
histogram).
-/

/-- `df if user == 'Overall' else df[df['sender'] == user]`. -/
def scopeRecords (df : List CleanRecord) (user : String) : List CleanRecord :=
  if user = "Overall" then df else df.filter (fun r => r.sender == user)

/-- Insert into a sorted duplicate-free list. -/
def insertSortedDedup (x : Nat) : List Nat → List Nat
  | [] => [x]
  | y :: ys =>
    if x < y then x :: y :: ys
    else if x = y then y :: ys
    else y :: insertSortedDedup x ys

/-- The distinct values of a list, ascending. -/
def sortedDistinct (l : List Nat) : List Nat := l.foldr insertSortedDedup []

/-- Number of occurrences of `x` in `l`. -/
def countEq (l : List Nat) (x : Nat) : Nat := (l.filter (fun y => y == x)).length

/-- `self.df['hour'].value_counts().sort_index()`: one `(hour, count)` row
per hour value that occurs, in ascending hour order. -/
def hourlyTimeline (df : List CleanRecord) : List (Nat × Nat) :=
  let hours := df.map (fun r => r.hour)
  (sortedDistinct hours).map (fun h => (h, countEq hours h))

/-!
Lemmas about the assembler.
-/

/-- Each emitted message corresponds to one header line; the open message
adds one. -/
lemma assembleLines_length (lines : List String) :
    ∀ cur : Option RawMessage,
      (assembleLines lines cur).length =
        ((lines.filter (fun l => (classify l).isSome)).length +
          (match cur with
           | some _ => 1
           | none => 0)) := by
  induction lines with
  | nil =>
    intro cur
    cases cur <;> simp [assembleLines]
  | cons line rest ih =>
    intro cur
    cases hc : classify line <;> cases cur <;>
      simp [assembleLines, hc, List.filter_cons, ih]

/-- With no header line and nothing open, the assembler emits nothing. -/
lemma assembleLines_nil_of_no_header (lines : List String)
    (h : ∀ l ∈ lines, classify l = none) : assembleLines lines none = [] := by
  induction lines with
  | nil => simp [assembleLines]
  | cons line rest ih =>
    have hl : classify line = none := h line (by simp)
    simp only [assembleLines, hl]
    exact ih (fun l hl2 => h l (by simp [hl2]))

/-- C4: the number of raw messages emitted by `parse_chat` equals the
number of lines matched as headers by the Line Classifier; in particular
the message still open at end of input is flushed, so no message is lost at
end-of-stream. -/
theorem claim4_message_count (text : String) :
    (parse_chat text).length =
      ((splitLines text).filter (fun l => (classify l).isSome)).length := by
  simpa using assembleLines_length (splitLines text) none

/-- C8: with no valid header line the pipeline returns the empty list (and,
being a total function, raises nothing); likewise when every candidate
message is dropped by timestamp parsing or the content filter. -/
theorem claim8_empty_result (text : String) :
    ((∀ l ∈ splitLines text, classify l = none) → parseTranscript text = [])
    ∧ ((∀ m ∈ parse_chat text, processRecord system_messages m = none) →
        parseTranscript text = []) := by
  constructor
  · intro h
    simp [parseTranscript, process_dataframe, parse_chat,
      assembleLines_nil_of_no_header _ h]
  · intro h
    simpa [parseTranscript, process_dataframe, List.filterMap_eq_nil_iff] using h

/-- C8 witness: a transcript with no header line yields no records. -/
theorem claim8_empty_result_witness :
    parseTranscript "chat export\nno header lines here" = [] :=
  (claim8_empty_result "chat export\nno header lines here").1 (by decide)

/-- C7 (amended): a non-header line is appended to the open message as a
newline plus the line stripped on BOTH sides (`line.strip()`), and
non-header lines arriving before any header are discarded. -/
theorem claim7_continuation (line : String) (m : RawMessage) (rest : List String)
    (h : classify line = none) :
    assembleLines (line :: rest) (some m) =
        assembleLines rest
          (some ⟨m.dateTimeStr, m.sender, m.message ++ "\n" ++ pyStrip line⟩)
      ∧ assembleLines (line :: rest) none = assembleLines rest none := by
  constructor <;> simp [assembleLines, h]

/-- C7 witness: appending the continuation line `"  x  "` to an open
message adds `"\nx"` (both sides trimmed). -/
theorem claim7_continuation_witness :
    assembleLines ["  x  "] (some ⟨"d", "s", "b"⟩) = [⟨"d", "s", "b\nx"⟩] := by
  rw [(claim7_continuation "  x  " ⟨"d", "s", "b"⟩ [] (by rfl)).1]
  rfl

/-- C7 counterexample: the continuation line `"  indented  "` is stripped on
both sides, so the body is NOT newline plus the right-trimmed line (leading
whitespace is not preserved). -/
theorem claim7_counterexample :
    (parse_chat "[01/01/23, 9:05:00 PM] Alice: Hello\n  indented  ").map
        (fun m => m.message) = ["Hello\nindented"]
    ∧ ("Hello\nindented" : String) ≠ "Hello\n" ++ pyRStrip "  indented  " := by
  exact ⟨rfl, by decide⟩

/-- C1: on the 24-hour header `[01/01/23, 13:00:00] Alice: hi` the raw
message is built, the 12-hour parse coerces to NaT, the 24-hour format
would parse it — but the record is dropped: the `except ValueError` fallback
never runs because `errors='coerce'` does not raise. -/
theorem claim1_dead_fallback :
    (parse_chat "[01/01/23, 13:00:00] Alice: hi").map (fun m => m.dateTimeStr) =
        ["01/01/23 13:00:00"]
    ∧ parse12 "01/01/23 13:00:00" = none
    ∧ parse24 "01/01/23 13:00:00" = some ⟨2023, 1, 1, 13, 0, 0⟩
    ∧ parseTranscript "[01/01/23, 13:00:00] Alice: hi" = [] :=
  ⟨rfl, rfl, rfl, rfl⟩

/-- C2 counterexample: a header line with U+202F and a meridiem whose hour
token is 25 matches the header grammar and yields the canonical string
`01/01/23 25:00:00PM`, but the 12-hour parse fails and the record is
dropped, so not every such line survives normalization. -/
theorem claim2_counterexample :
    (classify "[01/01/23, 25:00:00\u202FPM] Alice: hi").map (fun h => (h.g3, h.g4)) =
        some ("", "PM")
    ∧ (parse_chat "[01/01/23, 25:00:00\u202FPM] Alice: hi").map
        (fun m => m.dateTimeStr) = ["01/01/23 25:00:00PM"]
    ∧ parse12 "01/01/23 25:00:00PM" = none
    ∧ parseTranscript "[01/01/23, 25:00:00\u202FPM] Alice: hi" = [] :=
  ⟨rfl, rfl, rfl, rfl⟩

/-- C3 counterexample: `app.py`'s filter drops a body containing `left`
only inside the longer word `cleft` (substring, not whole-word, matching),
while `data_processor.py`'s copy retains a `created this group` body (its
list has no such phrase). -/
theorem claim3_counterexample :
    parseTranscript_app "[01/01/23, 10:00:00 AM] Bob: he cleft the rock" = []
    ∧ (parseTranscript "[01/01/23, 10:00:00 AM] Ann: Sam created this group").map
        (fun r => r.message) = ["Sam created this group"] :=
  ⟨rfl, rfl⟩

/-- C5 counterexample: a header line whose sender field is whitespace-only
still matches (group 5 captures a single space, trimmed to empty), and a
message with empty sender is created — the classifier does not return
"no header". -/
theorem claim5_counterexample :
    (classify "[01/01/23, 10:00:00 PM]  : hi").map (fun h => (h.g5, pyStrip h.g5)) =
        some (" ", "")
    ∧ (parse_chat "[01/01/23, 10:00:00 PM]  : hi").map (fun m => m.sender) = [""] :=
  ⟨rfl, rfl⟩

/-- C6 counterexample: the year token 99 is parsed to 1999, not
2000 + 99 = 2099 (strptime's POSIX two-digit-year pivot). -/
theorem claim6_counterexample :
    (parseTranscript "[01/01/99, 10:00:00 AM] Alice: hi").map (fun r => r.year) =
        [1999]
    ∧ (1999 : Nat) ≠ 2000 + 99 :=
  ⟨rfl, by decide⟩

/-- C9 counterexample: a record set whose only message falls in hour 21
yields an hourly histogram with a single bucket, not all 24. -/
theorem claim9_counterexample :
    hourlyTimeline (scopeRecords
        (parseTranscript "[01/01/23, 9:05:00 PM] Alice: Hello") "Overall") =
        [(21, 1)]
    ∧ [((21 : Nat), (1 : Nat))].length ≠ 24 :=
  ⟨rfl, by decide⟩

/-- C10 counterexample: on the same transcript the standalone pipeline keeps
the message `I left early` while the `app.py` copy filters it out, and the
standalone processor's returned columns omit the `day_of_week` column the
analyzer's weekday timeline reads. -/
theorem claim10_counterexample :
    (parseTranscript "[01/01/23, 9:05:00 PM] Alice: I left early").map
        (fun r => r.message) = ["I left early"]
    ∧ parseTranscript_app "[01/01/23, 9:05:00 PM] Alice: I left early" = []
    ∧ timelineWeekdayColumn ∉ outputColumns
    ∧ timelineWeekdayColumn ∈ outputColumns_app := by
  exact ⟨rfl, rfl, by decide, by decide⟩

/-!
Lemmas about the content filter and the two phrase lists.
-/

/-- `re.search` of an alternation only grows when phrases are added. -/
lemma searchFrom_mono (P1 P2 : List (List Char)) (hsub : ∀ p ∈ P1, p ∈ P2) :
    ∀ cs, searchFrom P1 cs = true → searchFrom P2 cs = true := by
  intro cs
  induction cs with
  | nil =>
    intro h
    simp only [searchFrom, List.any_eq_true] at h ⊢
    obtain ⟨p, hp, hmt⟩ := h
    exact ⟨p, hsub p hp, hmt⟩
  | cons c cs2 ih =>
    intro h
    simp only [searchFrom, Bool.or_eq_true, List.any_eq_true] at h ⊢
    rcases h with ⟨p, hp, hmt⟩ | h2
    · exact Or.inl ⟨p, hsub p hp, hmt⟩
    · exact Or.inr (ih h2)

/-- Monotonicity of `str.contains` in the phrase list. -/
lemma containsAnyPhrase_mono (l1 l2 : List String) (hsub : ∀ p ∈ l1, p ∈ l2)
    (s : String) (h : containsAnyPhrase l1 s = true) :
    containsAnyPhrase l2 s = true := by
  unfold containsAnyPhrase at h ⊢
  refine searchFrom_mono _ _ ?_ _ h
  intro p hp
  simp only [List.mem_map] at hp ⊢
  obtain ⟨q, hq, rfl⟩ := hp
  exact ⟨q, hsub q hq, rfl⟩

/-- The `app.py` phrase list extends the `data_processor.py` one. -/
lemma mem_system_messages_app (p : String) (hp : p ∈ system_messages) :
    p ∈ system_messages_app := by
  have he : system_messages_app =
      system_messages ++
        ["changed the group name", "changed this group\x27s icon",
         "changed the group settings", "created this group",
         "left", "added", "removed", "joined"] := rfl
  rw [he]
  exact List.mem_append_left _ hp

/-- C3 (amended): the `app.py` filter drops every record whose cleaned body
contains any phrase of its list as a case-insensitive SUBSTRING — including
the bare keywords `left`, `added`, `removed`, `joined`, which are not
anchored at word boundaries, so bodies containing them inside longer words
are dropped too (the `data_processor.py` copy checks only the 9 common
phrases). -/
theorem claim3_substring_filter (m : RawMessage)
    (h : containsAnyPhrase system_messages_app (pyStrip (removeMarks m.message)) = true) :
    processRecord system_messages_app m = none := by
  unfold processRecord
  split
  · rfl
  · split
    · rfl
    · simp [h]

/-- C3 witness: a body containing `left` only inside `cleft` is dropped by
the `app.py` filter. -/
theorem claim3_substring_filter_witness :
    processRecord system_messages_app
      ⟨"01/01/23 10:00:00AM", "Bob", "he cleft the rock"⟩ = none :=
  claim3_substring_filter ⟨"01/01/23 10:00:00AM", "Bob", "he cleft the rock"⟩ (by rfl)

/-- A row kept by the `app.py` filter is kept, unchanged, by the
`data_processor.py` filter. -/
lemma processRecord_app_le (m : RawMessage) (r : CleanRecord)
    (h : processRecord system_messages_app m = some r) :
    processRecord system_messages m = some r := by
  unfold processRecord at h ⊢
  by_cases h0 : pyStrip (removeMarks m.message) = ""
  · rw [if_pos h0] at h
    exact absurd h (by simp)
  · rw [if_neg h0] at h ⊢
    cases hp : parse12 m.dateTimeStr with
    | none =>
      rw [hp] at h
      exact absurd h (by simp)
    | some dt =>
      rw [hp] at h
      dsimp only at h ⊢
      by_cases hc : containsAnyPhrase system_messages_app (pyStrip (removeMarks m.message)) = true
      · rw [if_pos hc] at h
        exact absurd h (by simp)
      · rw [if_neg hc] at h
        have hdp : ¬ containsAnyPhrase system_messages (pyStrip (removeMarks m.message)) = true :=
          fun hdp => hc (containsAnyPhrase_mono _ _ mem_system_messages_app _ hdp)
        rw [if_neg hdp]
        exact h

/-- `filterMap` with a stronger filter yields a sublist. -/
lemma filterMap_sublist_of_imp {α β : Type} (f g : α → Option β)
    (hfg : ∀ x y, f x = some y → g x = some y) (l : List α) :
    (l.filterMap f).Sublist (l.filterMap g) := by
  induction l with
  | nil => simp
  | cons x l2 ih =>
    cases hf : f x with
    | none =>
      rw [List.filterMap_cons, hf]
      cases hg : g x with
      | none =>
        rw [List.filterMap_cons, hg]
        exact ih
      | some y =>
        rw [List.filterMap_cons, hg]
        exact ih.cons y
    | some y =>
      rw [List.filterMap_cons, hf, List.filterMap_cons, hfg x y hf]
      exact ih.cons₂ y

/-- C10 (amended): the two pipeline copies share `parse_chat` but not the
filter or the output schema: the `app.py` record list is always a sublist
of the standalone one (it filters strictly more phrases), and the
standalone processor's returned columns omit the `day_of_week` column that
the analyzer's weekday timeline reads (only the `app.py` copy returns it). -/
theorem claim10_pipeline_relation (text : String) :
    (parseTranscript_app text).Sublist (parseTranscript text)
    ∧ timelineWeekdayColumn ∉ outputColumns
    ∧ timelineWeekdayColumn ∈ outputColumns_app := by
  refine ⟨?_, by decide, by decide⟩
  unfold parseTranscript parseTranscript_app process_dataframe
  exact filterMap_sublist_of_imp _ _ processRecord_app_le _

/-!
Lemmas about the hourly histogram (`value_counts().sort_index()`).
-/

/-- Membership in sorted-dedup insertion. -/
lemma mem_insertSortedDedup (x y : Nat) (l : List Nat) :
    y ∈ insertSortedDedup x l ↔ y = x ∨ y ∈ l := by
  induction l with
  | nil => simp [insertSortedDedup]
  | cons z zs ih =>
    simp only [insertSortedDedup]
    split
    · simp only [List.mem_cons]
    · split
      · rename_i hlt heq
        subst heq
        simp only [List.mem_cons]
        tauto
      · simp only [List.mem_cons, ih]
        tauto

/-- The distinct-values list contains exactly the values of the input. -/
lemma mem_sortedDistinct (l : List Nat) (x : Nat) :
    x ∈ sortedDistinct l ↔ x ∈ l := by
  unfold sortedDistinct
  induction l with
  | nil => simp
  | cons y ys ih => simp [mem_insertSortedDedup, ih]

/-- C9 (amended): for every record collection and scope, the hourly
histogram has a bucket for an hour exactly when some scoped record falls in
that hour — hours with zero count are omitted, not zero-filled (only the
weekday histogram is zero-filled through its fixed category list). -/
theorem claim9_observed_hours (records : List CleanRecord) (user : String) (h : Nat) :
    ((hourlyTimeline (scopeRecords records user)).any (fun p => p.1 == h)) = true
      ↔ ∃ r ∈ scopeRecords records user, r.hour = h := by
  unfold hourlyTimeline
  simp only [List.any_eq_true, List.mem_map, mem_sortedDistinct, beq_iff_eq]
  constructor
  · rintro ⟨p, ⟨a, ⟨r, hr, rfl⟩, rfl⟩, hph⟩
    exact ⟨r, hr, hph⟩
  · rintro ⟨r, hr, rfl⟩
    exact ⟨(r.hour, countEq ((scopeRecords records user).map (fun s => s.hour)) r.hour),
      ⟨r.hour, ⟨r, hr, rfl⟩, rfl⟩, rfl⟩

/-!
Lemmas about the sender section of the matcher.
-/

/-- `splitAtColon` on a colon-free prefix followed by a colon. -/
lemma splitAtColon_append (ws rest : List Char) (h : ∀ c ∈ ws, c ≠ ':') :
    splitAtColon (ws ++ ':' :: rest) = some (ws, rest) := by
  induction ws with
  | nil => simp [splitAtColon]
  | cons c cs ih =>
    have hc : c ≠ ':' := h c (by simp)
    have ih2 := ih (fun c2 hc2 => h c2 (by simp [hc2]))
    simp only [List.cons_append, splitAtColon, if_neg hc]
    rw [show cs.append (':' :: rest) = cs ++ ':' :: rest from rfl, ih2]

/-- `takeWhile` keeps a list all of whose elements satisfy the predicate. -/
lemma takeWhile_all (p : Char → Bool) (l : List Char) (h : ∀ c ∈ l, p c = true) :
    l.takeWhile p = l := by
  induction l with
  | nil => rfl
  | cons c cs ih =>
    have hc : p c = true := h c (by simp)
    have ih2 := ih (fun x hx => h x (by simp [hx]))
    simp [List.takeWhile_cons, hc, ih2]

/-- The `getLastD` of a nonempty list is one of its elements. -/
lemma getLastD_mem (d : Char) (l : List Char) (h : l ≠ []) : l.getLastD d ∈ l := by
  induction l with
  | nil => exact absurd rfl h
  | cons c cs ih =>
    cases cs with
    | nil => simp [List.getLastD]
    | cons c2 cs2 =>
      have := ih (by simp)
      simp only [List.getLastD] at this ⊢
      exact List.mem_cons_of_mem c this

/-- A whitespace character is not a colon. -/
lemma isPySpace_ne_colon (c : Char) (h : isPySpace c = true) : c ≠ ':' := by
  intro heq
  rw [heq] at h
  exact absurd h (by decide)

/-- Stripping a one-character whitespace string yields the empty string. -/
lemma pyStrip_single_space (c : Char) (h : isPySpace c = true) :
    pyStrip (String.mk [c]) = "" := by
  show String.mk (pyStripList [c]) = ""
  unfold pyStripList
  rw [show List.dropWhile isPySpace [c] = [] from by simp [List.dropWhile, h]]
  rfl

/-- `\s*([^:]+):` on an all-whitespace span: the match still succeeds, with
the last whitespace character as the captured sender group. -/
lemma senderSection_allspace (ws rest : List Char) (hne : ws ≠ [])
    (hsp : ∀ c ∈ ws, isPySpace c = true) :
    senderSection (ws ++ ':' :: rest) = some (String.mk [ws.getLastD ' '], rest) := by
  unfold senderSection
  rw [splitAtColon_append ws rest (fun c hc => isPySpace_ne_colon c (hsp c hc))]
  dsimp only
  rw [if_neg hne, takeWhile_all isPySpace ws hsp, if_pos rfl]

/-- A header line whose sender field is the whitespace run `ws` (date
`01/01/23`, time `10:00:00 PM`, body `body`). -/
def wsSenderLine (ws body : List Char) : String :=
  String.mk ('[' :: '0' :: '1' :: '/' :: '0' :: '1' :: '/' :: '2' :: '3' :: ',' :: ' ' ::
    '1' :: '0' :: ':' :: '0' :: '0' :: ':' :: '0' :: '0' :: ' ' :: 'P' :: 'M' :: ']' ::
    (ws ++ ':' :: body))

/-- C5 (amended): a line whose bracketed timestamp matches the header
grammar but whose sender field is whitespace-only is still classified as a
header — the sender group trims to the empty string and the line starts a
new message with empty sender, rather than being rejected. -/
theorem claim5_whitespace_sender (ws body : List Char) (hne : ws ≠ [])
    (hsp : ∀ c ∈ ws, isPySpace c = true) :
    (classify (wsSenderLine ws body)).map (fun hm => pyStrip hm.g5) = some ""
    ∧ (assembleLines [wsSenderLine ws body] none).map (fun m => m.sender) = [""] := by
  have hlast : isPySpace (ws.getLastD ' ') = true := hsp _ (getLastD_mem ' ' ws hne)
  have hcls : classify (wsSenderLine ws body) =
      some ⟨"01/01/23", "10:00:00", "", "PM", String.mk [ws.getLastD ' '],
            String.mk (skipSpaces body)⟩ := by
    show ((senderSection (ws ++ ':' :: body)).bind fun x =>
        some (⟨"01/01/23", "10:00:00", "", "PM", x.1,
               String.mk (skipSpaces x.2)⟩ : HeaderMatch)) = _
    rw [senderSection_allspace ws body hne hsp]
    rfl
  constructor
  · rw [hcls]
    show some (pyStrip (String.mk [ws.getLastD ' '])) = some ""
    rw [pyStrip_single_space _ hlast]
  · have hasm : assembleLines [wsSenderLine ws body] none =
        [headerToMessage ⟨"01/01/23", "10:00:00", "", "PM",
          String.mk [ws.getLastD ' '], String.mk (skipSpaces body)⟩] := by
      simp [assembleLines, hcls]
    rw [hasm]
    simp only [List.map_cons, List.map_nil]
    show [pyStrip (String.mk [ws.getLastD ' '])] = [""]
    rw [pyStrip_single_space _ hlast]

/-- C5 witness: a single-space sender with body `hi`. -/
theorem claim5_whitespace_sender_witness :
    (classify (wsSenderLine [' '] "hi".data)).map (fun hm => pyStrip hm.g5) = some ""
    ∧ (assembleLines [wsSenderLine [' '] "hi".data] none).map (fun m => m.sender) = [""] :=
  claim5_whitespace_sender [' '] "hi".data (by decide) (by decide)

/-!
Inversion lemmas for the strptime model.
-/

/-- A successful `tryCands` comes from one in-range candidate whose
continuation succeeded. -/
lemma tryCands_some (lo hi : Nat) (k : Nat → List Char → Option DateTime)
    (cands : List (Nat × List Char)) (dt : DateTime)
    (h : tryCands lo hi k cands = some dt) :
    ∃ v r, (v, r) ∈ cands ∧ lo ≤ v ∧ v ≤ hi ∧ k v r = some dt := by
  induction cands with
  | nil => simp [tryCands] at h
  | cons c rest ih =>
    obtain ⟨v, r⟩ := c
    unfold tryCands at h
    cases hif : (if lo ≤ v ∧ v ≤ hi then k v r else none) with
    | some dt1 =>
      rw [hif] at h
      have hdt : dt1 = dt := by
        have h2 : (some dt1 : Option DateTime) = some dt := h
        injection h2
      subst hdt
      by_cases hc : lo ≤ v ∧ v ≤ hi
      · rw [if_pos hc] at hif
        exact ⟨v, r, by simp, hc.1, hc.2, hif⟩
      · rw [if_neg hc] at hif
        exact absurd hif (by simp)
    | none =>
      rw [hif] at h
      obtain ⟨v2, r2, hmem, hlo, hhi, hk⟩ := ih (by exact h)
      exact ⟨v2, r2, List.mem_cons_of_mem _ hmem, hlo, hhi, hk⟩

/-- Whatever timestamp `finish12` returns carries the date fields it was
given. -/
lemma finish12_some (d mo year : Nat) (cs : List Char) (dt : DateTime)
    (h : finish12 d mo year cs = some dt) :
    dt.year = year ∧ dt.month = mo ∧ dt.day = d := by
  unfold finish12 at h
  obtain ⟨hr, r, -, -, -, h1⟩ := tryCands_some _ _ _ _ _ h
  split at h1
  · obtain ⟨mi, r3, -, -, -, h2⟩ := tryCands_some _ _ _ _ _ h1
    split at h2
    · obtain ⟨se, r5, -, -, -, h3⟩ := tryCands_some _ _ _ _ _ h2
      cases hpm : parseMeridiemEnd r5 with
      | none =>
        rw [hpm] at h3
        exact absurd h3 (by simp)
      | some pm =>
        rw [hpm] at h3
        dsimp only at h3
        unfold mkDT at h3
        split at h3
        · injection h3 with h4
          subst h4
          exact ⟨rfl, rfl, rfl⟩
        · exact absurd h3 (by simp)
    · exact absurd h2 (by simp)
  · exact absurd h1 (by simp)

/-- C6 (amended): a successfully parsed timestamp's year is
`yearOfToken` of the two-digit year token: 2000 + YY for tokens 00-68 but
1900 + YY for tokens 69-99 (the strptime POSIX pivot), not 2000 + YY
throughout. -/
theorem claim6_year_pivot (d1 d2 n1 n2 y1 y2 : Char) (rest : List Char) (dt : DateTime)
    (hd1 : d1.isDigit = true) (hd2 : d2.isDigit = true)
    (hn1 : n1.isDigit = true) (hn2 : n2.isDigit = true)
    (hp : parse12 (String.mk
        (d1 :: d2 :: '/' :: n1 :: n2 :: '/' :: y1 :: y2 :: ' ' :: rest)) = some dt) :
    dt.year = yearOfToken (digitVal y1 * 10 + digitVal y2) := by
  have hd2slash : d2 ≠ '/' := fun hh => by
    rw [hh] at hd2
    exact absurd hd2 (by decide)
  have hn2slash : n2 ≠ '/' := fun hh => by
    rw [hh] at hn2
    exact absurd hn2 (by decide)
  unfold parse12 parseDatePart at hp
  rw [show (String.mk (d1 :: d2 :: '/' :: n1 :: n2 :: '/' :: y1 :: y2 :: ' ' :: rest)).data =
      d1 :: d2 :: '/' :: n1 :: n2 :: '/' :: y1 :: y2 :: ' ' :: rest from rfl] at hp
  rw [show fieldCand (d1 :: d2 :: '/' :: n1 :: n2 :: '/' :: y1 :: y2 :: ' ' :: rest) =
      [(digitVal d1 * 10 + digitVal d2, '/' :: n1 :: n2 :: '/' :: y1 :: y2 :: ' ' :: rest),
       (digitVal d1, d2 :: '/' :: n1 :: n2 :: '/' :: y1 :: y2 :: ' ' :: rest)] from by
    simp [fieldCand, hd1, hd2]] at hp
  obtain ⟨v, r, hmem, -, -, h1⟩ := tryCands_some _ _ _ _ _ hp
  simp only [List.mem_cons, List.not_mem_nil, or_false, Prod.mk.injEq] at hmem
  rcases hmem with ⟨-, rfl⟩ | ⟨-, rfl⟩
  · dsimp only at h1
    rw [if_pos rfl] at h1
    rw [show fieldCand (n1 :: n2 :: '/' :: y1 :: y2 :: ' ' :: rest) =
        [(digitVal n1 * 10 + digitVal n2, '/' :: y1 :: y2 :: ' ' :: rest),
         (digitVal n1, n2 :: '/' :: y1 :: y2 :: ' ' :: rest)] from by
      simp [fieldCand, hn1, hn2]] at h1
    obtain ⟨v2, r2, hmem2, -, -, h2⟩ := tryCands_some _ _ _ _ _ h1
    simp only [List.mem_cons, List.not_mem_nil, or_false, Prod.mk.injEq] at hmem2
    rcases hmem2 with ⟨-, rfl⟩ | ⟨-, rfl⟩
    · dsimp only at h2
      by_cases hy : ((('/' : Char) = '/') ∧ ((' ' : Char) = ' ') ∧
          y1.isDigit = true ∧ y2.isDigit = true)
      · rw [if_pos hy] at h2
        exact (finish12_some _ _ _ _ _ h2).1
      · rw [if_neg hy] at h2
        exact absurd h2 (by simp)
    · dsimp only at h2
      rw [if_neg (fun hand => hn2slash hand.1)] at h2
      exact absurd h2 (by simp)
  · dsimp only at h1
    rw [if_neg hd2slash] at h1
    exact absurd h1 (by simp)

/-- C6 witness: `01/01/99 10:00:00AM` parses to year 1999 =
`yearOfToken 99`. -/
theorem claim6_year_pivot_witness :
    parse12 "01/01/99 10:00:00AM" = some ⟨1999, 1, 1, 10, 0, 0⟩
    ∧ (⟨1999, 1, 1, 10, 0, 0⟩ : DateTime).year =
        yearOfToken (digitVal '9' * 10 + digitVal '9') := by
  refine ⟨rfl, ?_⟩
  exact claim6_year_pivot '0' '1' '0' '1' '9' '9' "10:00:00AM".data
    ⟨1999, 1, 1, 10, 0, 0⟩ (by decide) (by decide) (by decide) (by decide) (by rfl)

/-!
Lemmas about the meridiem section: the captured U+202F group is always
empty (the greedy `\s*` swallows the narrow space first, and when the
longer-whitespace attempt fails, the U+202F alternative fails the same
way), and the captured meridiem is a case-mix of AM/PM.
-/

/-- The empty meridiem alternative captures the empty string. -/
lemma meriEmpty_shape (cs : List Char) (g4 : String) (r : List Char)
    (h : meriEmpty cs = some (g4, r)) : g4 = "" := by
  unfold meriEmpty at h
  cases hsk : skipSpaces cs with
  | nil =>
    rw [hsk] at h
    exact absurd h (by simp)
  | cons d tail =>
    rw [hsk] at h
    dsimp only at h
    by_cases hd : d = ']'
    · rw [if_pos hd] at h
      simp only [Option.some.injEq, Prod.mk.injEq] at h
      exact h.1.symm
    · rw [if_neg hd] at h
      exact absurd h (by simp)

/-- The meridiem group is empty or a two-character case-mix of AM/PM. -/
lemma meriTail_shape (cs : List Char) (g4 : String) (r : List Char)
    (h : meriTail cs = some (g4, r)) :
    g4 = "" ∨ ∃ a b, g4 = String.mk [a, b] ∧
      (a = 'A' ∨ a = 'a' ∨ a = 'P' ∨ a = 'p') ∧ (b = 'M' ∨ b = 'm') := by
  rcases cs with _ | ⟨c1, _ | ⟨c2, rest⟩⟩
  · exact Or.inl (meriEmpty_shape [] _ _ (by rw [show meriEmpty [] = meriTail [] from rfl]; exact h))
  · exact Or.inl (meriEmpty_shape [c1] _ _ (by rw [show meriEmpty [c1] = meriTail [c1] from rfl]; exact h))
  · dsimp only [meriTail] at h
    by_cases hcond : ((c1 = 'A' ∨ c1 = 'a' ∨ c1 = 'P' ∨ c1 = 'p') ∧ (c2 = 'M' ∨ c2 = 'm'))
    · rw [if_pos hcond] at h
      cases hsk : skipSpaces rest with
      | nil =>
        rw [hsk] at h
        exact Or.inl (meriEmpty_shape _ _ _ h)
      | cons d tail =>
        rw [hsk] at h
        dsimp only at h
        by_cases hd : d = ']'
        · rw [if_pos hd] at h
          simp only [Option.some.injEq, Prod.mk.injEq] at h
          exact Or.inr ⟨c1, c2, h.1.symm, hcond.1, hcond.2⟩
        · rw [if_neg hd] at h
          exact Or.inl (meriEmpty_shape _ _ _ h)
    · rw [if_neg hcond] at h
      exact Or.inl (meriEmpty_shape _ _ _ h)

/-- The non-U+202F branch of `meriAt` captures an empty group 3 and a
well-shaped group 4. -/
lemma meriAt_map_case (cs2 : List Char) (g3 g4 : String) (r : List Char)
    (h : (meriTail cs2).map (fun p => ("", p.1, p.2)) = some (g3, g4, r)) :
    g3 = "" ∧ (g4 = "" ∨ ∃ a b, g4 = String.mk [a, b] ∧
      (a = 'A' ∨ a = 'a' ∨ a = 'P' ∨ a = 'p') ∧ (b = 'M' ∨ b = 'm')) := by
  rcases Option.map_eq_some'.1 h with ⟨⟨g4x, rx⟩, hmt, heq⟩
  simp only [Prod.mk.injEq] at heq
  obtain ⟨h3, h4, hr⟩ := heq
  subst h4
  exact ⟨h3.symm, meriTail_shape _ _ _ hmt⟩

/-- When the U+202F fallback cannot succeed, `meriAt` leaves group 3
empty. -/
lemma meriAt_shape (cs : List Char) (g3 g4 : String) (r : List Char)
    (h : meriAt cs = some (g3, g4, r))
    (hfb : ∀ rest, cs = '\u202F' :: rest → meriTail rest = none) :
    g3 = "" ∧ (g4 = "" ∨ ∃ a b, g4 = String.mk [a, b] ∧
      (a = 'A' ∨ a = 'a' ∨ a = 'P' ∨ a = 'p') ∧ (b = 'M' ∨ b = 'm')) := by
  rcases cs with _ | ⟨c, rest⟩
  · refine meriAt_map_case [] g3 g4 r ?_
    rw [show (meriTail []).map (fun p => ("", p.1, p.2)) = meriAt [] from rfl]
    exact h
  · dsimp only [meriAt] at h
    by_cases hc : c = '\u202F'
    · rw [if_pos hc] at h
      rw [hfb rest (by rw [hc])] at h
      exact meriAt_map_case _ _ _ _ h
    · rw [if_neg hc] at h
      exact meriAt_map_case _ _ _ _ h

/-- A failed `meriSection` means `meriAt` fails at the current position. -/
lemma meriSection_none_meriAt (cs : List Char) (h : meriSection cs = none) :
    meriAt cs = none := by
  rcases cs with _ | ⟨c, rest⟩
  · rw [show meriAt [] = meriSection [] from rfl]
    exact h
  · dsimp only [meriSection] at h
    by_cases hc : isPySpace c = true
    · rw [if_pos hc] at h
      cases hm : meriSection rest with
      | some out =>
        rw [hm] at h
        exact absurd h (by simp)
      | none =>
        rw [hm] at h
        exact h
    · rw [if_neg hc] at h
      exact h

/-- A failed `meriAt` means `meriTail` fails at the current position. -/
lemma meriAt_none_meriTail (cs : List Char) (h : meriAt cs = none) :
    meriTail cs = none := by
  rcases cs with _ | ⟨c, rest⟩
  · have h2 : (meriTail []).map (fun p => ("", p.1, p.2)) = none := by
      rw [show (meriTail []).map (fun p => ("", p.1, p.2)) = meriAt [] from rfl]
      exact h
    exact Option.map_eq_none'.1 h2
  · dsimp only [meriAt] at h
    by_cases hc : c = '\u202F'
    · rw [if_pos hc] at h
      cases hmt : meriTail rest with
      | some p =>
        obtain ⟨g4x, rx⟩ := p
        rw [hmt] at h
        exact absurd h (by simp)
      | none =>
        rw [hmt] at h
        exact Option.map_eq_none'.1 h
    · rw [if_neg hc] at h
      exact Option.map_eq_none'.1 h

/-- Any successful `meriSection` leaves the U+202F group empty and captures
a well-shaped meridiem. -/
lemma meriSection_shape (cs : List Char) :
    ∀ g3 g4 r, meriSection cs = some (g3, g4, r) →
      g3 = "" ∧ (g4 = "" ∨ ∃ a b, g4 = String.mk [a, b] ∧
        (a = 'A' ∨ a = 'a' ∨ a = 'P' ∨ a = 'p') ∧ (b = 'M' ∨ b = 'm')) := by
  induction cs with
  | nil =>
    intro g3 g4 r h
    refine meriAt_shape [] g3 g4 r ?_ (fun rest hh => List.noConfusion hh)
    rw [show meriAt [] = meriSection [] from rfl]
    exact h
  | cons c rest ih =>
    intro g3 g4 r h
    dsimp only [meriSection] at h
    by_cases hc : isPySpace c = true
    · rw [if_pos hc] at h
      cases hm : meriSection rest with
      | some out =>
        rw [hm] at h
        have hout : out = (g3, g4, r) := by
          have h2 : (some out : Option (String × String × List Char)) = some (g3, g4, r) := h
          injection h2
        subst hout
        exact ih g3 g4 r hm
      | none =>
        rw [hm] at h
        refine meriAt_shape (c :: rest) g3 g4 r h ?_
        intro rest2 hh
        injection hh with hh1 hh2
        subst hh2
        exact meriAt_none_meriTail rest (meriSection_none_meriAt rest hm)
    · rw [if_neg hc] at h
      refine meriAt_shape (c :: rest) g3 g4 r h ?_
      intro rest2 hh
      injection hh with hh1 hh2
      rw [hh1] at hc
      exact absurd (by decide) hc

/-- Every successful classification has an empty U+202F group and an empty
or two-letter AM/PM meridiem group. -/
lemma classify_shape (line : String) (hm : HeaderMatch)
    (hc : classify line = some hm) :
    hm.g3 = "" ∧ (hm.g4 = "" ∨ ∃ a b, hm.g4 = String.mk [a, b] ∧
      (a = 'A' ∨ a = 'a' ∨ a = 'P' ∨ a = 'p') ∧ (b = 'M' ∨ b = 'm')) := by
  unfold classify waMatch at hc
  simp only [Option.bind_eq_some] at hc
  obtain ⟨r0, h0, p1, h1, r2, h2, p2, h3, p3, h4, p4, h5, hfin⟩ := hc
  obtain ⟨g3, g4, r4⟩ := p3
  have hshape := meriSection_shape p2.2 g3 g4 r4 h4
  have hm2 : hm = ⟨p1.1, p2.1, g3, g4, p4.1, String.mk (skipSpaces p4.2)⟩ := by
    have h6 : (some (⟨p1.1, p2.1, g3, g4, p4.1,
        String.mk (skipSpaces p4.2)⟩ : HeaderMatch) : Option HeaderMatch) = some hm := hfin
    injection h6 with h7
    exact h7.symm
  rw [hm2]
  exact hshape

/-- Meridiem capture text is untouched by `.strip()`. -/
lemma pyStrip_meridiem (a b : Char)
    (ha : a = 'A' ∨ a = 'a' ∨ a = 'P' ∨ a = 'p') (hb : b = 'M' ∨ b = 'm') :
    pyStrip (String.mk [a, b]) = String.mk [a, b] := by
  rcases ha with rfl | rfl | rfl | rfl <;> rcases hb with rfl | rfl <;> decide

/-- Months never exceed 31 days. -/
lemma daysInMonth_le_31 (year mo : Nat) : daysInMonth year mo ≤ 31 := by
  unfold daysInMonth
  split
  · split <;> norm_num
  · split <;> norm_num

/-- `tryCands` succeeds at its first candidate when that candidate is in
range and its continuation succeeds. -/
lemma tryCands_first (lo hi : Nat) (k : Nat → List Char → Option DateTime)
    (v : Nat) (r : List Char) (cands : List (Nat × List Char)) (dt : DateTime)
    (hrange : lo ≤ v ∧ v ≤ hi) (hk : k v r = some dt) :
    tryCands lo hi k ((v, r) :: cands) = some dt := by
  unfold tryCands
  rw [if_pos hrange, hk]

/-- An ASCII digit character has value at most 9. -/
lemma digitVal_le_nine (c : Char) (h : c.isDigit = true) : digitVal c ≤ 9 := by
  unfold Char.isDigit at h
  simp only [Bool.and_eq_true, decide_eq_true_eq] at h
  obtain ⟨h1, h2⟩ := h
  unfold digitVal Char.toNat
  have h3 : c.val.toNat ≤ 57 := UInt32.toNat_le_of_le (by norm_num) h2
  have h4 : ('0' : Char).val.toNat = 48 := rfl
  omega

/-- Forward evaluation of `%M:%S%p` (the part of `finish12` after the hour
field) on in-range two-digit minute/second tokens and a meridiem. -/
lemma finish12_tail_eval (year mo d hr : Nat) (i1 i2 s1 s2 p1 p2 : Char)
    (hi1 : i1.isDigit = true) (hi2 : i2.isDigit = true)
    (hs1 : s1.isDigit = true) (hs2 : s2.isDigit = true)
    (hp1 : p1 = 'A' ∨ p1 = 'a' ∨ p1 = 'P' ∨ p1 = 'p') (hp2 : p2 = 'M' ∨ p2 = 'm')
    (hdhi : d ≤ daysInMonth year mo)
    (hmi : digitVal i1 * 10 + digitVal i2 ≤ 59)
    (hse : digitVal s1 * 10 + digitVal s2 ≤ 59) :
    tryCands 0 59 (fun mi r3 =>
        match r3 with
        | ':' :: r4 => tryCands 0 59 (fun se r5 =>
            match parseMeridiemEnd r5 with
            | some pm => mkDT year mo d (hour12 hr pm) mi se
            | none => none) (fieldCand r4)
        | _ => none) (fieldCand (i1 :: i2 :: ':' :: s1 :: s2 :: [p1, p2])) =
      some ⟨year, mo, d, hour12 hr (p1 == 'P' || p1 == 'p'),
            digitVal i1 * 10 + digitVal i2, digitVal s1 * 10 + digitVal s2⟩ := by
  rw [show fieldCand (i1 :: i2 :: ':' :: s1 :: s2 :: [p1, p2]) =
      [(digitVal i1 * 10 + digitVal i2, ':' :: s1 :: s2 :: [p1, p2]),
       (digitVal i1, i2 :: ':' :: s1 :: s2 :: [p1, p2])] from by
    simp [fieldCand, hi1, hi2]]
  refine tryCands_first _ _ _ _ _ _ _ ⟨Nat.zero_le _, hmi⟩ ?_
  change tryCands 0 59 _ (fieldCand (s1 :: s2 :: [p1, p2])) = _
  rw [show fieldCand (s1 :: s2 :: [p1, p2]) =
      [(digitVal s1 * 10 + digitVal s2, [p1, p2]),
       (digitVal s1, s2 :: [p1, p2])] from by
    simp [fieldCand, hs1, hs2]]
  refine tryCands_first _ _ _ _ _ _ _ ⟨Nat.zero_le _, hse⟩ ?_
  dsimp only
  rw [show parseMeridiemEnd [p1, p2] = some (p1 == 'P' || p1 == 'p') from by
    rcases hp1 with rfl | rfl | rfl | rfl <;> rcases hp2 with rfl | rfl <;> rfl]
  dsimp only
  unfold mkDT
  rw [if_pos hdhi]

/-- Forward evaluation of the 12-hour strptime on a canonical
`dd/mm/yy hh:ii:ss` + meridiem string whose tokens are in range. -/
lemma parse12_valid_eval (d1 d2 n1 n2 y1 y2 h1 h2 i1 i2 s1 s2 p1 p2 : Char)
    (hd1 : d1.isDigit = true) (hd2 : d2.isDigit = true)
    (hn1 : n1.isDigit = true) (hn2 : n2.isDigit = true)
    (hy1 : y1.isDigit = true) (hy2 : y2.isDigit = true)
    (hh1 : h1.isDigit = true) (hh2 : h2.isDigit = true)
    (hi1 : i1.isDigit = true) (hi2 : i2.isDigit = true)
    (hs1 : s1.isDigit = true) (hs2 : s2.isDigit = true)
    (hp1 : p1 = 'A' ∨ p1 = 'a' ∨ p1 = 'P' ∨ p1 = 'p') (hp2 : p2 = 'M' ∨ p2 = 'm')
    (hdlo : 1 ≤ digitVal d1 * 10 + digitVal d2)
    (hdhi : digitVal d1 * 10 + digitVal d2 ≤
      daysInMonth (yearOfToken (digitVal y1 * 10 + digitVal y2))
        (digitVal n1 * 10 + digitVal n2))
    (hmlo : 1 ≤ digitVal n1 * 10 + digitVal n2)
    (hmhi : digitVal n1 * 10 + digitVal n2 ≤ 12)
    (hhlo : 1 ≤ digitVal h1 * 10 + digitVal h2)
    (hhhi : digitVal h1 * 10 + digitVal h2 ≤ 12)
    (hmi : digitVal i1 * 10 + digitVal i2 ≤ 59)
    (hse : digitVal s1 * 10 + digitVal s2 ≤ 59) :
    parse12 (String.mk (d1 :: d2 :: '/' :: n1 :: n2 :: '/' :: y1 :: y2 :: ' ' ::
        h1 :: h2 :: ':' :: i1 :: i2 :: ':' :: s1 :: s2 :: [p1, p2])) =
      some ⟨yearOfToken (digitVal y1 * 10 + digitVal y2),
            digitVal n1 * 10 + digitVal n2, digitVal d1 * 10 + digitVal d2,
            hour12 (digitVal h1 * 10 + digitVal h2) (p1 == 'P' || p1 == 'p'),
            digitVal i1 * 10 + digitVal i2, digitVal s1 * 10 + digitVal s2⟩ := by
  unfold parse12 parseDatePart
  rw [show (String.mk (d1 :: d2 :: '/' :: n1 :: n2 :: '/' :: y1 :: y2 :: ' ' ::
      h1 :: h2 :: ':' :: i1 :: i2 :: ':' :: s1 :: s2 :: [p1, p2])).data =
      d1 :: d2 :: '/' :: n1 :: n2 :: '/' :: y1 :: y2 :: ' ' ::
      h1 :: h2 :: ':' :: i1 :: i2 :: ':' :: s1 :: s2 :: [p1, p2] from rfl]
  rw [show fieldCand (d1 :: d2 :: '/' :: n1 :: n2 :: '/' :: y1 :: y2 :: ' ' ::
      h1 :: h2 :: ':' :: i1 :: i2 :: ':' :: s1 :: s2 :: [p1, p2]) =
      [(digitVal d1 * 10 + digitVal d2, '/' :: n1 :: n2 :: '/' :: y1 :: y2 :: ' ' ::
          h1 :: h2 :: ':' :: i1 :: i2 :: ':' :: s1 :: s2 :: [p1, p2]),
       (digitVal d1, d2 :: '/' :: n1 :: n2 :: '/' :: y1 :: y2 :: ' ' ::
          h1 :: h2 :: ':' :: i1 :: i2 :: ':' :: s1 :: s2 :: [p1, p2])] from by
    simp [fieldCand, hd1, hd2]]
  refine tryCands_first _ _ _ _ _ _ _ ⟨hdlo, le_trans hdhi (daysInMonth_le_31 _ _)⟩ ?_
  dsimp only
  rw [if_pos rfl]
  rw [show fieldCand (n1 :: n2 :: '/' :: y1 :: y2 :: ' ' ::
      h1 :: h2 :: ':' :: i1 :: i2 :: ':' :: s1 :: s2 :: [p1, p2]) =
      [(digitVal n1 * 10 + digitVal n2, '/' :: y1 :: y2 :: ' ' ::
          h1 :: h2 :: ':' :: i1 :: i2 :: ':' :: s1 :: s2 :: [p1, p2]),
       (digitVal n1, n2 :: '/' :: y1 :: y2 :: ' ' ::
          h1 :: h2 :: ':' :: i1 :: i2 :: ':' :: s1 :: s2 :: [p1, p2])] from by
    simp [fieldCand, hn1, hn2]]
  refine tryCands_first _ _ _ _ _ _ _ ⟨hmlo, hmhi⟩ ?_
  dsimp only
  rw [if_pos ⟨rfl, rfl, hy1, hy2⟩]
  unfold finish12
  rw [show fieldCand (h1 :: h2 :: ':' :: i1 :: i2 :: ':' :: s1 :: s2 :: [p1, p2]) =
      [(digitVal h1 * 10 + digitVal h2, ':' :: i1 :: i2 :: ':' :: s1 :: s2 :: [p1, p2]),
       (digitVal h1, h2 :: ':' :: i1 :: i2 :: ':' :: s1 :: s2 :: [p1, p2])] from by
    simp [fieldCand, hh1, hh2]]
  refine tryCands_first _ _ _ _ _ _ _ ⟨hhlo, hhhi⟩ ?_
  change tryCands 0 59 _ (fieldCand (i1 :: i2 :: ':' :: s1 :: s2 :: [p1, p2])) = _
  exact finish12_tail_eval _ _ _ _ i1 i2 s1 s2 p1 p2 hi1 hi2 hs1 hs2 hp1 hp2 hdhi hmi hse

/-- Forward evaluation of the 12-hour strptime on a canonical
`dd/mm/yy h:ii:ss` + meridiem string with a single-digit hour token. -/
lemma parse12_valid_eval1 (d1 d2 n1 n2 y1 y2 h1 i1 i2 s1 s2 p1 p2 : Char)
    (hd1 : d1.isDigit = true) (hd2 : d2.isDigit = true)
    (hn1 : n1.isDigit = true) (hn2 : n2.isDigit = true)
    (hy1 : y1.isDigit = true) (hy2 : y2.isDigit = true)
    (hh1 : h1.isDigit = true)
    (hi1 : i1.isDigit = true) (hi2 : i2.isDigit = true)
    (hs1 : s1.isDigit = true) (hs2 : s2.isDigit = true)
    (hp1 : p1 = 'A' ∨ p1 = 'a' ∨ p1 = 'P' ∨ p1 = 'p') (hp2 : p2 = 'M' ∨ p2 = 'm')
    (hdlo : 1 ≤ digitVal d1 * 10 + digitVal d2)
    (hdhi : digitVal d1 * 10 + digitVal d2 ≤
      daysInMonth (yearOfToken (digitVal y1 * 10 + digitVal y2))
        (digitVal n1 * 10 + digitVal n2))
    (hmlo : 1 ≤ digitVal n1 * 10 + digitVal n2)
    (hmhi : digitVal n1 * 10 + digitVal n2 ≤ 12)
    (hhlo : 1 ≤ digitVal h1)
    (hmi : digitVal i1 * 10 + digitVal i2 ≤ 59)
    (hse : digitVal s1 * 10 + digitVal s2 ≤ 59) :
    parse12 (String.mk (d1 :: d2 :: '/' :: n1 :: n2 :: '/' :: y1 :: y2 :: ' ' ::
        h1 :: ':' :: i1 :: i2 :: ':' :: s1 :: s2 :: [p1, p2])) =
      some ⟨yearOfToken (digitVal y1 * 10 + digitVal y2),
            digitVal n1 * 10 + digitVal n2, digitVal d1 * 10 + digitVal d2,
            hour12 (digitVal h1) (p1 == 'P' || p1 == 'p'),
            digitVal i1 * 10 + digitVal i2, digitVal s1 * 10 + digitVal s2⟩ := by
  unfold parse12 parseDatePart
  rw [show (String.mk (d1 :: d2 :: '/' :: n1 :: n2 :: '/' :: y1 :: y2 :: ' ' ::
      h1 :: ':' :: i1 :: i2 :: ':' :: s1 :: s2 :: [p1, p2])).data =
      d1 :: d2 :: '/' :: n1 :: n2 :: '/' :: y1 :: y2 :: ' ' ::
      h1 :: ':' :: i1 :: i2 :: ':' :: s1 :: s2 :: [p1, p2] from rfl]
  rw [show fieldCand (d1 :: d2 :: '/' :: n1 :: n2 :: '/' :: y1 :: y2 :: ' ' ::
      h1 :: ':' :: i1 :: i2 :: ':' :: s1 :: s2 :: [p1, p2]) =
      [(digitVal d1 * 10 + digitVal d2, '/' :: n1 :: n2 :: '/' :: y1 :: y2 :: ' ' ::
          h1 :: ':' :: i1 :: i2 :: ':' :: s1 :: s2 :: [p1, p2]),
       (digitVal d1, d2 :: '/' :: n1 :: n2 :: '/' :: y1 :: y2 :: ' ' ::
          h1 :: ':' :: i1 :: i2 :: ':' :: s1 :: s2 :: [p1, p2])] from by
    simp [fieldCand, hd1, hd2]]
  refine tryCands_first _ _ _ _ _ _ _ ⟨hdlo, le_trans hdhi (daysInMonth_le_31 _ _)⟩ ?_
  dsimp only
  rw [if_pos rfl]
  rw [show fieldCand (n1 :: n2 :: '/' :: y1 :: y2 :: ' ' ::
      h1 :: ':' :: i1 :: i2 :: ':' :: s1 :: s2 :: [p1, p2]) =
      [(digitVal n1 * 10 + digitVal n2, '/' :: y1 :: y2 :: ' ' ::
          h1 :: ':' :: i1 :: i2 :: ':' :: s1 :: s2 :: [p1, p2]),
       (digitVal n1, n2 :: '/' :: y1 :: y2 :: ' ' ::
          h1 :: ':' :: i1 :: i2 :: ':' :: s1 :: s2 :: [p1, p2])] from by
    simp [fieldCand, hn1, hn2]]
  refine tryCands_first _ _ _ _ _ _ _ ⟨hmlo, hmhi⟩ ?_
  dsimp only
  rw [if_pos ⟨rfl, rfl, hy1, hy2⟩]
  unfold finish12
  rw [show fieldCand (h1 :: ':' :: i1 :: i2 :: ':' :: s1 :: s2 :: [p1, p2]) =
      [(digitVal h1, ':' :: i1 :: i2 :: ':' :: s1 :: s2 :: [p1, p2])] from by
    simp [fieldCand, hh1, show ((':' : Char).isDigit = false) from by decide]]
  refine tryCands_first _ _ _ _ _ _ _
    ⟨hhlo, le_trans (digitVal_le_nine h1 hh1) (by norm_num)⟩ ?_
  change tryCands 0 59 _ (fieldCand (i1 :: i2 :: ':' :: s1 :: s2 :: [p1, p2])) = _
  exact finish12_tail_eval _ _ _ _ i1 i2 s1 s2 p1 p2 hi1 hi2 hs1 hs2 hp1 hp2 hdhi hmi hse

/-- C2 (amended): for every header line the canonical timestamp string is
the date group, a space, the time group, and the meridiem group appended
directly — the narrow no-break space is consumed by `\s*`, so the captured
U+202F group is always empty and never reaches the string; and whenever the
tokens denote a valid calendar date with a 12-hour clock hour (1-12), that
canonical string parses under the 12-hour format, so the record survives the
Temporal Normalizer — for two-digit `HH:MM:SS` hour tokens (second
conjunct) as well as single-digit `H:MM:SS` hour tokens (third conjunct),
covering every hour shape the header grammar `\d{1,2}:\d{2}:\d{2}` admits.
(The claim's unconditional "is parseable" fails for header lines with
out-of-range tokens, see the counterexample.) -/
theorem claim2_canonical_timestamp :
    (∀ (line : String) (hm : HeaderMatch), classify line = some hm →
        hm.g3 = "" ∧ (hm.g4 ≠ "" →
          (headerToMessage hm).dateTimeStr = hm.g1 ++ " " ++ (hm.g2 ++ hm.g4)))
    ∧ (∀ (d1 d2 n1 n2 y1 y2 h1 h2 i1 i2 s1 s2 p1 p2 : Char),
        d1.isDigit = true → d2.isDigit = true → n1.isDigit = true →
        n2.isDigit = true → y1.isDigit = true → y2.isDigit = true →
        h1.isDigit = true → h2.isDigit = true → i1.isDigit = true →
        i2.isDigit = true → s1.isDigit = true → s2.isDigit = true →
        (p1 = 'A' ∨ p1 = 'a' ∨ p1 = 'P' ∨ p1 = 'p') → (p2 = 'M' ∨ p2 = 'm') →
        1 ≤ digitVal d1 * 10 + digitVal d2 →
        digitVal d1 * 10 + digitVal d2 ≤
          daysInMonth (yearOfToken (digitVal y1 * 10 + digitVal y2))
            (digitVal n1 * 10 + digitVal n2) →
        1 ≤ digitVal n1 * 10 + digitVal n2 → digitVal n1 * 10 + digitVal n2 ≤ 12 →
        1 ≤ digitVal h1 * 10 + digitVal h2 → digitVal h1 * 10 + digitVal h2 ≤ 12 →
        digitVal i1 * 10 + digitVal i2 ≤ 59 → digitVal s1 * 10 + digitVal s2 ≤ 59 →
        parse12 (String.mk (d1 :: d2 :: '/' :: n1 :: n2 :: '/' :: y1 :: y2 :: ' ' ::
            h1 :: h2 :: ':' :: i1 :: i2 :: ':' :: s1 :: s2 :: [p1, p2])) =
          some ⟨yearOfToken (digitVal y1 * 10 + digitVal y2),
                digitVal n1 * 10 + digitVal n2, digitVal d1 * 10 + digitVal d2,
                hour12 (digitVal h1 * 10 + digitVal h2) (p1 == 'P' || p1 == 'p'),
                digitVal i1 * 10 + digitVal i2, digitVal s1 * 10 + digitVal s2⟩)
    ∧ (∀ (d1 d2 n1 n2 y1 y2 h1 i1 i2 s1 s2 p1 p2 : Char),
        d1.isDigit = true → d2.isDigit = true → n1.isDigit = true →
        n2.isDigit = true → y1.isDigit = true → y2.isDigit = true →
        h1.isDigit = true → i1.isDigit = true →
        i2.isDigit = true → s1.isDigit = true → s2.isDigit = true →
        (p1 = 'A' ∨ p1 = 'a' ∨ p1 = 'P' ∨ p1 = 'p') → (p2 = 'M' ∨ p2 = 'm') →
        1 ≤ digitVal d1 * 10 + digitVal d2 →
        digitVal d1 * 10 + digitVal d2 ≤
          daysInMonth (yearOfToken (digitVal y1 * 10 + digitVal y2))
            (digitVal n1 * 10 + digitVal n2) →
        1 ≤ digitVal n1 * 10 + digitVal n2 → digitVal n1 * 10 + digitVal n2 ≤ 12 →
        1 ≤ digitVal h1 →
        digitVal i1 * 10 + digitVal i2 ≤ 59 → digitVal s1 * 10 + digitVal s2 ≤ 59 →
        parse12 (String.mk (d1 :: d2 :: '/' :: n1 :: n2 :: '/' :: y1 :: y2 :: ' ' ::
            h1 :: ':' :: i1 :: i2 :: ':' :: s1 :: s2 :: [p1, p2])) =
          some ⟨yearOfToken (digitVal y1 * 10 + digitVal y2),
                digitVal n1 * 10 + digitVal n2, digitVal d1 * 10 + digitVal d2,
                hour12 (digitVal h1) (p1 == 'P' || p1 == 'p'),
                digitVal i1 * 10 + digitVal i2, digitVal s1 * 10 + digitVal s2⟩) := by
  refine ⟨?_, parse12_valid_eval, parse12_valid_eval1⟩
  intro line hm hc
  obtain ⟨hg3, hg4⟩ := classify_shape line hm hc
  refine ⟨hg3, fun hne => ?_⟩
  rcases hg4 with hg4 | ⟨a, b, hab, ha, hb⟩
  · exact absurd hg4 hne
  · unfold headerToMessage
    dsimp only
    rw [if_neg hne, hg3, hab, pyStrip_meridiem a b ha hb]
    rfl

/-- C2 witness: on a real U+202F header line the canonical string is
`11/03/24 11:32:05PM` with the narrow space dropped, and it parses as
23:32:05 on 11 March 2024. -/
theorem claim2_canonical_timestamp_witness :
    (classify "[11/03/24, 11:32:05\u202FPM] Bob: hey").map
        (fun hm => (hm.g3, (headerToMessage hm).dateTimeStr)) =
      some ("", "11/03/24 11:32:05PM")
    ∧ parse12 "11/03/24 11:32:05PM" = some ⟨2024, 3, 11, 23, 32, 5⟩
    ∧ parse12 "01/01/23 9:05:00PM" = some ⟨2023, 1, 1, 21, 5, 0⟩ := by
  refine ⟨?_, ?_, ?_⟩
  · have hc : classify "[11/03/24, 11:32:05\u202FPM] Bob: hey" =
        some ⟨"11/03/24", "11:32:05", "", "PM", "Bob", "hey"⟩ := rfl
    have hdts := (claim2_canonical_timestamp.1 _ _ hc).2 (by decide)
    rw [hc]
    show some (("" : String),
        (headerToMessage ⟨"11/03/24", "11:32:05", "", "PM", "Bob", "hey"⟩).dateTimeStr) =
      some ("", "11/03/24 11:32:05PM")
    rw [hdts]
    rfl
  · exact claim2_canonical_timestamp.2.1 '1' '1' '0' '3' '2' '4' '1' '1' '3' '2' '0' '5' 'P' 'M'
      (by decide) (by decide) (by decide) (by decide) (by decide) (by decide)
      (by decide) (by decide) (by decide) (by decide) (by decide) (by decide)
      (by decide) (by decide) (by decide) (by decide) (by decide) (by decide)
      (by decide) (by decide) (by decide) (by decide)
  · exact claim2_canonical_timestamp.2.2 '0' '1' '0' '1' '2' '3' '9' '0' '5' '0' '0' 'P' 'M'
      (by decide) (by decide) (by decide) (by decide) (by decide) (by decide)
      (by decide) (by decide) (by decide) (by decide) (by decide) (by decide)
      (by decide) (by decide) (by decide) (by decide) (by decide) (by decide)
      (by decide) (by decide)
